import Mathlib

/-!
Verification of the av-demo chat client against its specification.

Each definition in this file is a shallow embedding of a function of the
repository, translated from the TypeScript source.  Machine integers are
modelled as `Nat` with explicit `% 2 ^ w` where the JavaScript semantics
wraps (`DataView.setUint32`, `DataView.setBigUint64`).  Byte strings are
`List Nat` whose elements are byte values.
-/

namespace AvDemo

/-- The 8 bytes a JavaScript DataView.setBigUint64 writes big-endian:
the value is first reduced mod 2^64 (ToBigUint64), then split into bytes. -/
def u64be (n : Nat) : List Nat :=
  let m := n % 2 ^ 64
  [m / 2 ^ 56 % 256, m / 2 ^ 48 % 256, m / 2 ^ 40 % 256, m / 2 ^ 32 % 256,
   m / 2 ^ 24 % 256, m / 2 ^ 16 % 256, m / 2 ^ 8 % 256, m % 256]

/-- The 4 bytes a JavaScript DataView.setUint32 writes big-endian:
the value is first reduced mod 2^32 (ToUint32), then split into bytes. -/
def u32be (n : Nat) : List Nat :=
  let m := n % 2 ^ 32
  [m / 2 ^ 24 % 256, m / 2 ^ 16 % 256, m / 2 ^ 8 % 256, m % 256]

/-- UTF-8 encoding of a single Unicode code point. -/
def utf8EncodeChar (c : Nat) : List Nat :=
  if c < 0x80 then [c]
  else if c < 0x800 then [0xC0 + c / 64, 0x80 + c % 64]
  else if c < 0x10000 then [0xE0 + c / 4096, 0x80 + c / 64 % 64, 0x80 + c % 64]
  else [0xF0 + c / 262144, 0x80 + c / 4096 % 64, 0x80 + c / 64 % 64, 0x80 + c % 64]

/-- UTF-8 bytes of a string, as TextEncoder.encode produces them. -/
def utf8Bytes (s : String) : List Nat :=
  (s.data.map (fun ch => utf8EncodeChar ch.toNat)).flatten

/-- Embeds buildAAD (src/apps/chat-ui/src/ui/ChatView.tsx, lines 286-308):
version byte 1, then the group-root and track-label UTF-8 bytes, then the
epoch, group sequence and frame index as big-endian u64, then the keyframe
flag byte.  The source allocates a buffer of the total length and copies
each part at its running offset, which is list concatenation. -/
def buildAAD (moqRoot trackLabelForAAD : String) (epoch groupSeq frameIdx : Nat)
    (isKeyframe : Bool) : List Nat :=
  let version := [1]
  let groupRootBytes := utf8Bytes moqRoot
  let trackLabelBytes := utf8Bytes trackLabelForAAD
  let epochBytes := u64be epoch
  let groupSeqBytes := u64be groupSeq
  let frameIdxBytes := u64be frameIdx
  let keyframeBytes := [if isKeyframe then 1 else 0]
  List.flatten [version, groupRootBytes, trackLabelBytes, epochBytes, groupSeqBytes,
    frameIdxBytes, keyframeBytes]

/-- Embeds the keyframe flag of the send path (ChatView.tsx line 431,
onChunk): isKeyframe = (frameCounter === 0). -/
def sendIsKeyframe (frameCounter : Nat) : Bool :=
  frameCounter == 0

/-- Embeds the keyframe flag of the receive path (ChatView.tsx line 344,
onPeerAudio): isKeyframe = (peerFrameCounter === 0). -/
def recvIsKeyframe (peerFrameCounter : Nat) : Bool :=
  peerFrameCounter == 0

/-- Embeds the sender wire framing (ChatView.tsx lines 438-441, onChunk):
a 4-byte big-endian frame counter followed by the ciphertext. -/
def encodeAudioPayload (frameCounter : Nat) (ciphertext : List Nat) : List Nat :=
  u32be frameCounter ++ ciphertext

/-- Big-endian read of exactly four bytes, as DataView.getUint32(0, false). -/
def readU32be (bs : List Nat) : Nat :=
  match bs with
  | [b0, b1, b2, b3] => ((b0 * 256 + b1) * 256 + b2) * 256 + b3
  | _ => 0

/-- Embeds the receiver parse (ChatView.tsx lines 331-339, onPeerAudio):
payloads shorter than 4 bytes are rejected before any decryption; otherwise
the first 4 bytes are the big-endian counter and the rest the ciphertext. -/
def parseAudioPayload (data : List Nat) : Option (Nat × List Nat) :=
  if data.length < 4 then none
  else some (readU32be (data.take 4), data.drop 4)

/-- Claim C1: the AAD built for an audio frame is exactly the big-endian byte
concatenation 0x01, utf8 group root, utf8 track label, u64 epoch, u64 group
sequence, u64 frame index, keyframe byte, and therefore has length
1 + the two UTF-8 lengths + 25. -/
theorem buildAAD_concat_and_length (moqRoot trackLabelForAAD : String)
    (epoch groupSeq frameIdx : Nat) (isKeyframe : Bool) :
    buildAAD moqRoot trackLabelForAAD epoch groupSeq frameIdx isKeyframe =
      [1] ++ utf8Bytes moqRoot ++ utf8Bytes trackLabelForAAD ++ u64be epoch ++
        u64be groupSeq ++ u64be frameIdx ++ [if isKeyframe then 1 else 0] ∧
    (buildAAD moqRoot trackLabelForAAD epoch groupSeq frameIdx isKeyframe).length =
      1 + (utf8Bytes moqRoot).length + (utf8Bytes trackLabelForAAD).length + 25 := by
  constructor
  · simp [buildAAD]
  · simp [buildAAD, u64be]
    omega

/-- Claim C2 counterexample: frame counter 2^24 has its low 24 bits zero (the
first frame of generation 1), yet the keyframe flag the code computes for it
is 0 on both the send and the receive path. -/
theorem keyframe_flag_not_per_generation :
    sendIsKeyframe 16777216 = false ∧ recvIsKeyframe 16777216 = false ∧
      16777216 % 2 ^ 24 = 0 := by
  decide

/-- Claim C2 (amended): the keyframe byte placed in the AAD is 1 exactly when
the frame counter is 0 — the very first frame of the stream — on both the
send path and the receive path; it is not reset at generation boundaries. -/
theorem keyframe_flag_iff_counter_zero (c : Nat) :
    (sendIsKeyframe c = true ↔ c = 0) ∧ (recvIsKeyframe c = true ↔ c = 0) := by
  simp [sendIsKeyframe, recvIsKeyframe]

/-- Claim C3: the 4-byte big-endian counter framing of the sender composed with the
parse of the receiver recovers the counter and ciphertext exactly, and every
payload shorter than 4 bytes is rejected (parse yields none, so no
decryption is attempted). -/
theorem audioPayload_roundtrip (c : Nat) (ct : List Nat) (h : c < 2 ^ 32) :
    parseAudioPayload (encodeAudioPayload c ct) = some (c, ct) ∧
      ∀ d : List Nat, d.length < 4 → parseAudioPayload d = none := by
  constructor
  · have hm : c % 2 ^ 32 = c := Nat.mod_eq_of_lt h
    simp [parseAudioPayload, encodeAudioPayload, u32be, readU32be, hm]
    omega
  · intro d hd
    simp [parseAudioPayload, hd]

/-- Witness for claim C3 at counter 5 and ciphertext [7, 9]. -/
theorem audioPayload_roundtrip_witness :
    5 < 2 ^ 32 ∧ parseAudioPayload (encodeAudioPayload 5 [7, 9]) = some (5, [7, 9]) :=
  ⟨by decide, (audioPayload_roundtrip 5 [7, 9] (by decide)).1⟩

/-! ## MoQ transport bridge (src/apps/chat-ui/src/bridge/moq.ts)

The bridge closure state: the publish track if live, the pending publish
queue, the frames written to the live track, the warning count, the closed
flag, and the counts of emitted callbacks. -/

structure BridgeState where
  currentTrack : Option Nat
  pendingPublish : List (List Nat)
  written : List (List Nat)
  warnings : Nat
  closed : Bool
  connectionClosed : Bool
  closedEvents : Nat
deriving DecidableEq

/-- The state right after connect: no live track, empty queue, not closed. -/
def initBridge : BridgeState :=
  { currentTrack := none, pendingPublish := [], written := [], warnings := 0,
    closed := false, connectionClosed := false, closedEvents := 0 }

/-- Embeds publish (moq.ts lines 150-157): write to the live track when
present, otherwise log a warning and push the frame onto pendingPublish.
There is no bound check and no drop. -/
def publish (s : BridgeState) (data : List Nat) : BridgeState :=
  match s.currentTrack with
  | some _ => { s with written := s.written ++ [data] }
  | none => { s with warnings := s.warnings + 1,
                     pendingPublish := s.pendingPublish ++ [data] }

/-- Embeds flushPendingPublish (moq.ts lines 159-166): while the queue is
nonempty and a track is live, shift the oldest frame and write it — i.e.
move the whole queue, in order, to the track. -/
def flushPendingPublish (s : BridgeState) : BridgeState :=
  match s.currentTrack with
  | some _ => { s with written := s.written ++ s.pendingPublish, pendingPublish := [] }
  | none => s

/-- Embeds close (moq.ts lines 175-185): a no-op when already closed,
otherwise set the closed flag, close the connection and emit onClosed.
Nothing is written to the track and the pending queue is untouched. -/
def closeBridge (s : BridgeState) : BridgeState :=
  if s.closed then s
  else { s with closed := true, connectionClosed := true,
                closedEvents := s.closedEvents + 1 }

theorem publish_foldl_noTrack (frames : List (List Nat)) (s : BridgeState)
    (h : s.currentTrack = none) :
    (frames.foldl publish s).pendingPublish = s.pendingPublish ++ frames ∧
      (frames.foldl publish s).warnings = s.warnings + frames.length ∧
      (frames.foldl publish s).written = s.written ∧
      (frames.foldl publish s).currentTrack = none := by
  induction frames generalizing s with
  | nil => simp [h]
  | cons f rest ih =>
    have hstep : publish s f =
        { s with warnings := s.warnings + 1,
                 pendingPublish := s.pendingPublish ++ [f] } := by
      simp [publish, h]
    have := ih ({ s with warnings := s.warnings + 1,
                         pendingPublish := s.pendingPublish ++ [f] }) h
    simpa [hstep, List.append_assoc, Nat.add_assoc, Nat.add_comm 1 rest.length] using this

/-- Claim C4 counterexample: there is no fixed bound on the pending publish
queue — for every candidate bound B, publishing B + 1 frames while the track
is not live leaves all B + 1 of them queued, none dropped. -/
theorem pendingPublish_unbounded :
    ¬ ∃ B : Nat, ∀ frames : List (List Nat),
        ((frames.foldl publish initBridge).pendingPublish).length ≤ B := by
  rintro ⟨B, hB⟩
  have h := hB (List.replicate (B + 1) [])
  have hq := (publish_foldl_noTrack (List.replicate (B + 1) []) initBridge rfl).1
  rw [hq] at h
  simp [initBridge] at h

/-- Claim C4 (amended): while the publish track is not live, every published
frame is appended to the pending queue with a warning logged; the queue is
unbounded and no frame is ever dropped; once the track is live, frames are
written to it directly. -/
theorem publish_pending_queue (frames : List (List Nat)) (s : BridgeState)
    (t : Nat) (data : List Nat) :
    ((frames.foldl publish initBridge).pendingPublish = frames ∧
      (frames.foldl publish initBridge).warnings = frames.length ∧
      (frames.foldl publish initBridge).written = []) ∧
    publish { s with currentTrack := some t } data =
      { s with currentTrack := some t, written := s.written ++ [data] } := by
  refine ⟨?_, ?_⟩
  · have h := publish_foldl_noTrack frames initBridge rfl
    refine ⟨?_, ?_, ?_⟩
    · simpa [initBridge] using h.1
    · simpa [initBridge] using h.2.1
    · simpa [initBridge] using h.2.2.1
  · simp [publish]

/-- Claim C8 counterexample: a frame queued before the track is live is not
flushed by close — after close it is still in the pending queue and was
never written to any track, while the closed event has been emitted. -/
theorem close_does_not_flush :
    (closeBridge (publish initBridge [1, 2])).written = [] ∧
      (closeBridge (publish initBridge [1, 2])).pendingPublish = [[1, 2]] ∧
      (closeBridge (publish initBridge [1, 2])).closedEvents = 1 := by
  decide

/-- Claim C8 (amended): close() closes the underlying connection and emits
the closed event, and a second call has no further effect, so the closed
event is emitted exactly once; the pending publish queue is not flushed. -/
theorem close_idempotent (s : BridgeState) :
    (closeBridge s).written = s.written ∧
      (closeBridge s).pendingPublish = s.pendingPublish ∧
      (closeBridge s).closed = true ∧
      (closeBridge s).closedEvents =
        (if s.closed then s.closedEvents else s.closedEvents + 1) ∧
      (closeBridge s).connectionClosed =
        (if s.closed then s.connectionClosed else true) ∧
      closeBridge (closeBridge s) = closeBridge s := by
  by_cases h : s.closed <;> simp [closeBridge, h]

/-! ## Peer subscriptions (moq.ts lines 112-142 and 168-173)

Each call to consumePeerTrack spawns one background read loop on the path
base/peer.  We record the multiset of spawned loops as a list of peer
pubkeys. -/

/-- Embeds the connect-time loop (moq.ts lines 138-142): one consumePeerTrack
call per entry of peerPubkeys that differs from the local pubkey. -/
def connectConsumeLoops (pubkey : String) (peerPubkeys : List String) : List String :=
  peerPubkeys.filter (fun p => p != pubkey)

/-- Embeds subscribeToPeer (moq.ts lines 168-173): any call with a pubkey
other than the local one spawns a new consumePeerTrack loop, with no check
for an existing loop on the same path. -/
def subscribeToPeer (pubkey : String) (loops : List String) (peerPubkey : String) :
    List String :=
  if peerPubkey != pubkey then loops ++ [peerPubkey] else loops

/-- Embeds the readFrame loop of consumePeerTrack (moq.ts lines 120-124):
frames are delivered to onFrame one at a time, in the order read, stopping
at the first null read. -/
def readFrameLoop : List (Option (List Nat)) → List (List Nat)
  | [] => []
  | none :: _ => []
  | some f :: rest => f :: readFrameLoop rest

/-- Claim C5 counterexample: two subscribeToPeer calls for the same peer
open two subscription loops on the path of that peer, not at most one. -/
theorem subscribeToPeer_not_idempotent :
    ¬ ((subscribeToPeer "selfpk"
          (subscribeToPeer "selfpk" (connectConsumeLoops "selfpk" []) "peerpk")
          "peerpk").count "peerpk" ≤ 1) := by
  decide

/-- Claim C5 (amended): every subscribeToPeer call whose pubkey differs from
the local pubkey spawns one more subscription loop for that peer (calls are
not deduplicated), a call with the local pubkey is a no-op, and the frames a
loop reads are delivered to the frame callback in arrival order. -/
theorem subscribeToPeer_spawns_loop (pubkey peerPubkey : String)
    (loops : List String) (frames : List (List Nat)) :
    (subscribeToPeer pubkey loops peerPubkey).count peerPubkey =
        loops.count peerPubkey + (if peerPubkey = pubkey then 0 else 1) ∧
      readFrameLoop (frames.map some) = frames := by
  constructor
  · by_cases h : peerPubkey = pubkey <;> simp [subscribeToPeer, h]
  · induction frames with
    | nil => rfl
    | cons f rest ih => simp [readFrameLoop, ih]

/-! ## Readiness (moq.ts lines 58-100 and 144-146)

callOnReady is guarded by the readyCalled flag; it is triggered by an
accepted publish track whose name matches the wrappers track, and by the
grace timer set at connect (moq.ts line 146). -/

inductive ReadyTrigger where
  | trackRequested (name : String)
  | graceTimerFired
deriving DecidableEq

structure ReadyAcct where
  readyCalled : Bool
  onReadyCalls : Nat
deriving DecidableEq

/-- Embeds callOnReady (moq.ts lines 61-66): invoke onReady only if it has
not been invoked before. -/
def callOnReady (s : ReadyAcct) : ReadyAcct :=
  if s.readyCalled then s
  else { readyCalled := true, onReadyCalls := s.onReadyCalls + 1 }

/-- One readiness-relevant event: a requested track reaches callOnReady only
when its name is the wrappers track name (moq.ts lines 73-81); the grace
timer reaches it unconditionally (moq.ts line 146). -/
def readyStep (s : ReadyAcct) : ReadyTrigger → ReadyAcct
  | .trackRequested name => if name = "wrappers" then callOnReady s else s
  | .graceTimerFired => callOnReady s

/-- Whether an event is one of the two ready sources of the claim. -/
def isReadySource : ReadyTrigger → Bool
  | .trackRequested name => name == "wrappers"
  | .graceTimerFired => true

def runReady (evs : List ReadyTrigger) : ReadyAcct :=
  evs.foldl readyStep { readyCalled := false, onReadyCalls := 0 }

theorem readyStep_foldl (evs : List ReadyTrigger) (s : ReadyAcct) :
    (evs.foldl readyStep s).readyCalled = (s.readyCalled || evs.any isReadySource) ∧
      (evs.foldl readyStep s).onReadyCalls =
        s.onReadyCalls +
          (if s.readyCalled = false ∧ evs.any isReadySource = true then 1 else 0) := by
  induction evs generalizing s with
  | nil => simp
  | cons e rest ih =>
    have hstep : ∀ u : ReadyAcct, (readyStep u e).readyCalled =
          (u.readyCalled || isReadySource e) ∧
        (readyStep u e).onReadyCalls =
          u.onReadyCalls +
            (if u.readyCalled = false ∧ isReadySource e = true then 1 else 0) := by
      intro u
      cases e with
      | trackRequested name =>
        by_cases hn : name = "wrappers" <;>
          by_cases hr : u.readyCalled <;>
            simp [readyStep, callOnReady, isReadySource, hn, hr]
      | graceTimerFired =>
        by_cases hr : u.readyCalled <;>
          simp [readyStep, callOnReady, isReadySource, hr]
    have h := ih (readyStep s e)
    rcases hstep s with ⟨h1, h2⟩
    rcases h with ⟨h3, h4⟩
    constructor
    · rw [List.foldl_cons] at *
      rw [h3, h1]
      simp [Bool.or_assoc]
    · rw [List.foldl_cons] at *
      rw [h4, h2, h1]
      by_cases hr : s.readyCalled <;>
        by_cases he : isReadySource e <;>
          by_cases hrest : rest.any isReadySource <;>
            simp [hr, he, hrest]

/-- Claim C7: onReady is invoked exactly once, at the first of the two
trigger sources (matching publish-track acceptance or grace-timer expiry)
to occur; later acceptances or timer expiries never produce a second call.
For every event sequence, the call count is 1 when some trigger occurred
and 0 otherwise, and the readyCalled flag is set exactly after a trigger. -/
theorem onReady_exactly_once (evs : List ReadyTrigger) :
    (runReady evs).readyCalled = evs.any isReadySource ∧
      (runReady evs).onReadyCalls = (if evs.any isReadySource then 1 else 0) := by
  have h := readyStep_foldl evs { readyCalled := false, onReadyCalls := 0 }
  rcases h with ⟨h1, h2⟩
  constructor
  · simpa [runReady] using h1
  · by_cases hany : evs.any isReadySource <;> simpa [runReady, hany] using h2

/-! ## Consume-loop error classification and retry (moq.ts lines 102-135) -/

/-- ASCII lowercasing of one character, the case folding the /i regex flag
performs on the ASCII patterns involved. -/
def toLowerAscii (c : Char) : Char :=
  if 'A' ≤ c ∧ c ≤ 'Z' then Char.ofNat (c.toNat + 32) else c

def lowerChars (s : List Char) : List Char :=
  s.map toLowerAscii

/-- Whether the second list occurs at the start of the first. -/
def startsWithChars : List Char → List Char → Bool
  | _, [] => true
  | [], _ :: _ => false
  | c :: cs, d :: ds => c == d && startsWithChars cs ds

/-- Whether the second list occurs contiguously anywhere in the first. -/
def containsChars : List Char → List Char → Bool
  | [], needle => needle.isEmpty
  | c :: rest, needle => startsWithChars (c :: rest) needle || containsChars rest needle

/-- Embeds isTransient (moq.ts lines 102-110): the error message matches
the case-insensitive regexes reset_stream or not found. -/
def isTransient (message : String) : Bool :=
  containsChars (lowerChars message.data) "reset_stream".data ||
    containsChars (lowerChars message.data) "not found".data

/-- What one iteration of the catch branch of consumePeerTrack does
(moq.ts lines 125-133). -/
structure ConsumeErrorResult where
  transient : Bool
  warned : Bool
  calledOnError : Bool
  delayMs : Nat
  retriesLoop : Bool
deriving DecidableEq

/-- Embeds the catch branch of consumePeerTrack (moq.ts lines 125-133):
transient errors log a warning, non-transient ones invoke onError; in both
cases the loop sleeps a constant 1000 ms and, as long as the bridge is not
closed, iterates again. -/
def handleConsumeError (closed : Bool) (message : String) : ConsumeErrorResult :=
  let t := isTransient message
  { transient := t, warned := t, calledOnError := !t, delayMs := 1000,
    retriesLoop := !closed }

theorem startsWithChars_iff (hay needle : List Char) :
    startsWithChars hay needle = true ↔ needle <+: hay := by
  induction hay generalizing needle with
  | nil =>
    cases needle with
    | nil => simp [startsWithChars]
    | cons d ds => simp [startsWithChars]
  | cons c cs ih =>
    cases needle with
    | nil => simp [startsWithChars]
    | cons d ds =>
      rw [List.cons_prefix_cons]
      simp only [startsWithChars, Bool.and_eq_true, beq_iff_eq, ih]
      constructor
      · rintro ⟨h1, h2⟩
        exact ⟨h1.symm, h2⟩
      · rintro ⟨h1, h2⟩
        exact ⟨h1.symm, h2⟩

theorem containsChars_iff (hay needle : List Char) :
    containsChars hay needle = true ↔ needle <:+: hay := by
  induction hay with
  | nil =>
    cases needle with
    | nil => simp [containsChars]
    | cons d ds => simp [containsChars]
  | cons c cs ih =>
    simp [containsChars, startsWithChars_iff, ih, List.infix_cons_iff]

/-- Claim C6 counterexample: for the non-transient error message boom the
consume loop invokes the error callback but does not propagate out of the
retry loop — it sleeps the same constant 1000 ms delay as a transient error
and iterates again; there is no exponential backoff. -/
theorem fatal_consume_error_still_retried :
    (handleConsumeError false "boom").transient = false ∧
      (handleConsumeError false "boom").calledOnError = true ∧
      (handleConsumeError false "boom").retriesLoop = true ∧
      (handleConsumeError false "boom").delayMs = 1000 ∧
      (handleConsumeError false "reset_stream").transient = true ∧
      (handleConsumeError false "reset_stream").delayMs = 1000 := by
  decide

/-- Claim C6 (amended): an error in the peer subscription loop is classified
transient exactly when its message contains reset_stream or not found
(case-insensitively); transient errors are logged as warnings and
non-transient ones invoke the error callback, but both kinds are retried
after the same fixed 1000 ms delay for as long as the bridge is not closed —
there is no exponential backoff and no escape from the loop on fatal
errors. -/
theorem consume_error_handling (closed : Bool) (message : String) :
    ((handleConsumeError closed message).transient = true ↔
        ("reset_stream".data <:+: lowerChars message.data ∨
          "not found".data <:+: lowerChars message.data)) ∧
      (handleConsumeError closed message).warned =
        (handleConsumeError closed message).transient ∧
      (handleConsumeError closed message).calledOnError =
        !(handleConsumeError closed message).transient ∧
      (handleConsumeError closed message).delayMs = 1000 ∧
      (handleConsumeError closed message).retriesLoop = !closed := by
  refine ⟨?_, rfl, rfl, rfl, rfl⟩
  simp [handleConsumeError, isTransient, containsChars_iff]

/-! ## Secret validation (src/apps/chat-ui/src/utils.ts, lines 8-17) -/

/-- The character class String.prototype.trim removes: ECMAScript WhiteSpace
and LineTerminator code points. -/
def jsWhitespaceChar (c : Char) : Bool :=
  c == ' ' || c == '\t' || c == '\n' || c == '\r' ||
    c.toNat == 11 || c.toNat == 12 || c.toNat == 0xa0 || c.toNat == 0x1680 ||
    (0x2000 ≤ c.toNat && c.toNat ≤ 0x200a) ||
    c.toNat == 0x2028 || c.toNat == 0x2029 || c.toNat == 0x202f ||
    c.toNat == 0x205f || c.toNat == 0x3000 || c.toNat == 0xfeff

/-- JavaScript s.trim(): drop whitespace at both ends. -/
def jsTrim (s : List Char) : List Char :=
  ((s.dropWhile jsWhitespaceChar).reverse.dropWhile jsWhitespaceChar).reverse

/-- JavaScript s.replace with the pattern of one leading 0x: remove the
first occurrence, which can only sit at the start. -/
def stripLeading0x : List Char → List Char
  | '0' :: 'x' :: rest => rest
  | s => s

def isLowerHexDigit (c : Char) : Bool :=
  ('0' ≤ c && c ≤ '9') || ('a' ≤ c && c ≤ 'f')

/-- The regex of normalizeSecret: exactly 64 characters of [0-9a-f]. -/
def isHex64 (s : List Char) : Bool :=
  s.length == 64 && s.all isLowerHexDigit

/-- The normalization pipeline of normalizeSecret: trim, lowercase, strip
one leading 0x. -/
def normalizedSecretChars (secret : String) : List Char :=
  stripLeading0x ((jsTrim secret.data).map toLowerAscii)

/-- Embeds normalizeSecret (utils.ts lines 8-17): reject the empty string,
normalize, and accept exactly the 64-hex-character results. -/
def normalizeSecret (secret : String) : Except String String :=
  if secret = "" then Except.error "Secret key required"
  else if isHex64 (normalizedSecretChars secret) then
    Except.ok (String.mk (normalizedSecretChars secret))
  else Except.error "Secret key must be 64 hex characters"

/-- Claim C9: normalizeSecret throws exactly when the input, after trimming,
lowercasing and removing one leading 0x, is not 64 hexadecimal characters
(the empty input also throws, since it normalizes to the empty string);
otherwise it returns exactly the normalized 64-hex string. -/
theorem normalizeSecret_ok_iff (secret : String) :
    (normalizeSecret secret =
        Except.ok (String.mk (normalizedSecretChars secret)) ↔
      isHex64 (normalizedSecretChars secret) = true) ∧
      ((∃ e, normalizeSecret secret = Except.error e) ↔
        isHex64 (normalizedSecretChars secret) = false) := by
  rcases eq_or_ne secret "" with h | h
  · subst h
    have h1 : normalizeSecret "" = Except.error "Secret key required" := rfl
    have h2 : isHex64 (normalizedSecretChars "") = false := by decide
    rw [h1, h2]
    simp
  · by_cases hhex : isHex64 (normalizedSecretChars secret) = true
    · simp [normalizeSecret, h, hhex]
    · simp only [Bool.not_eq_true] at hhex
      simp [normalizeSecret, h, hhex]

/-! ## Host-facing error surfacing (chat controller, eventHandler error
branch) -/

/-- An engine error event as seen by the controller: the message and fatal
fields may each be absent. -/
structure ErrorEvent where
  message : Option String
  fatal : Option Bool
deriving DecidableEq

/-- What the error branch surfaces to the host UI. -/
structure ErrorSurface where
  shownMessage : String
  shownFatal : Bool
  readySet : Option Bool
deriving DecidableEq

/-- Embeds the error case of eventHandler (chat controller, lines 119-134):
fatal defaults to true unless the event carries an explicit fatal=false
(errorEvent.fatal !== false); showError receives the message (or Unknown
error) and the fatal flag, and only a fatal error sets ready to false. -/
def handleErrorEvent (e : ErrorEvent) : ErrorSurface :=
  let fatal := !(e.fatal == some false)
  { shownMessage := e.message.getD "Unknown error"
    shownFatal := fatal
    readySet := if fatal then some false else none }

/-- Claim C10: an error event with an absent fatal field is surfaced as
fatal and sets the ready flag to false; only an explicit fatal=false is
surfaced as non-fatal, and exactly then the ready flag is left unchanged. -/
theorem error_event_fatal_default (msg : Option String) (f : Option Bool) :
    ((handleErrorEvent ⟨msg, f⟩).shownFatal = true ↔ f ≠ some false) ∧
      (f = none →
        (handleErrorEvent ⟨msg, f⟩).shownFatal = true ∧
          (handleErrorEvent ⟨msg, f⟩).readySet = some false) ∧
      ((handleErrorEvent ⟨msg, f⟩).readySet = none ↔ f = some false) := by
  rcases f with _ | b
  · simp [handleErrorEvent]
  · cases b <;> simp [handleErrorEvent]

/-- Witness for claim C10 at an event with both fields absent. -/
theorem error_event_fatal_default_witness :
    (handleErrorEvent ⟨none, none⟩).shownFatal = true ∧
      (handleErrorEvent ⟨none, none⟩).readySet = some false :=
  (error_event_fatal_default none none).2.1 rfl

end AvDemo
